import Mathlib

/-
Shallow embedding of `diffpy.utils.parsers.serialization` (serialization.py):
the two functions `serialize_data` and `deserialize_data`.

Python values are modelled by the mutual inductive family `Val` / `ValList` /
`ValDict`: integers, strings, Python lists, two-dimensional numpy arrays and
(insertion-ordered) dictionaries.  Python runtime exceptions are modelled by
`PyErr` and fallible evaluation by `Except PyErr`.  The filesystem is a
mapping from path strings to the (parsed) JSON content of each file, and file
accesses are additionally recorded in a trace of `FileOp`s.  `pathlib`
resolution of a relative filename to an absolute POSIX path depends on the
process working directory, so it is passed in as a function
`resolve : String → String`; `Path.name` and `Path.suffix` are implemented
following their CPython definitions.
-/

namespace Diffpy

/-- Python exceptions that the modelled code can raise. -/
inductive PyErr : Type where
  | improperSizeError
  | unsupportedTypeError
  | fileNotFoundError
  | typeError
  | valueError
  | indexError
  | attributeError
  deriving DecidableEq, Repr

/-- A file access performed by the code (used to state frame conditions). -/
inductive FileOp : Type where
  | read (name : String)
  | write (name : String)
  deriving DecidableEq, Repr

mutual

/-- A Python runtime value as used by serialization.py: int, str, list,
2-D numpy integer array, or dict. -/
inductive Val : Type where
  | int (n : Int)
  | str (s : String)
  | list (elems : ValList)
  | ndarray (rows : List (List Int))
  | dict (entries : ValDict)
  deriving DecidableEq, Repr

/-- The elements of a Python list value. -/
inductive ValList : Type where
  | nil
  | cons (v : Val) (rest : ValList)
  deriving DecidableEq, Repr

/-- A Python dict value: an insertion-ordered association of string keys to
values. -/
inductive ValDict : Type where
  | nil
  | cons (k : String) (v : Val) (rest : ValDict)
  deriving DecidableEq, Repr

end

/-- Build a `ValList` from a Lean list (notation helper for concrete values). -/
def listOf : List Val → ValList
  | [] => .nil
  | v :: rest => .cons v (listOf rest)

/-- Build a `ValDict` from a Lean association list (notation helper). -/
def dictOf : List (String × Val) → ValDict
  | [] => .nil
  | (k, v) :: rest => .cons k v (dictOf rest)

/-- Dict lookup, `d[k]` / `k in d.keys()`. -/
def dlookup : ValDict → String → Option Val
  | .nil, _ => none
  | .cons k' v rest, k => if k' = k then some v else dlookup rest k

/-- Dict item assignment `d[k] = v`: replaces the value in place if the key
exists (keeping its position, as Python dicts do), else appends. -/
def dset : ValDict → String → Val → ValDict
  | .nil, k, v => .cons k v .nil
  | .cons k' v' rest, k, v =>
      if k' = k then .cons k' v rest else .cons k' v' (dset rest k v)

/-- Python `d.update(other)`: assign every item of `other` into `d`, in
iteration order. -/
def dupdate (d : ValDict) : ValDict → ValDict
  | .nil => d
  | .cons k v rest => dupdate (dset d k v) rest

/-- The keys of a dict, in order. -/
def dkeys : ValDict → List String
  | .nil => []
  | .cons k _ rest => k :: dkeys rest

/-- Number of entries of a dict (`len(d)`). -/
def dlen : ValDict → Nat
  | .nil => 0
  | .cons _ _ rest => dlen rest + 1

/-- Number of elements of a list value (`len(l)`). -/
def llen : ValList → Nat
  | .nil => 0
  | .cons _ rest => llen rest + 1

/-- A numpy integer row as a Python list value. -/
def ofIntRow : List Int → ValList
  | [] => .nil
  | n :: rest => .cons (.int n) (ofIntRow rest)

/-- `ndarray.tolist()` on a 2-D integer array: nested Python lists. -/
def ofRows : List (List Int) → ValList
  | [] => .nil
  | r :: rest => .cons (.list (ofIntRow r)) (ofRows rest)

mutual

/-- The value that `json.load` reads back after `json.dump(·, cls=NumpyEncoder)`:
numpy arrays are written by `NumpyEncoder` via `tolist()` and come back as
nested lists; every other value is JSON-native and survives unchanged. -/
def encodeJson : Val → Val
  | .int n => .int n
  | .str s => .str s
  | .ndarray rows => .list (ofRows rows)
  | .list l => .list (encodeList l)
  | .dict d => .dict (encodeDict d)

/-- `encodeJson` on the elements of a list value. -/
def encodeList : ValList → ValList
  | .nil => .nil
  | .cons v rest => .cons (encodeJson v) (encodeList rest)

/-- `encodeJson` on the values of a dict. -/
def encodeDict : ValDict → ValDict
  | .nil => .nil
  | .cons k v rest => .cons k (encodeJson v) (encodeDict rest)

end

/-- Python `len(v)`: defined for str, list, ndarray and dict; `TypeError`
on an int. -/
def lenPy : Val → Except PyErr Nat
  | .int _ => .error .typeError
  | .str s => .ok s.length
  | .list l => .ok (llen l)
  | .ndarray rows => .ok rows.length
  | .dict d => .ok (dlen d)

/-- `[len(row) for row in l]` over the elements of a Python list. -/
def rowLengthsVL : ValList → Except PyErr (List Nat)
  | .nil => .ok []
  | .cons v rest =>
      match lenPy v with
      | .error e => .error e
      | .ok n =>
          match rowLengthsVL rest with
          | .error e => .error e
          | .ok ns => .ok (n :: ns)

/-- `[len(row) for row in data_table]`: iterating a list gives its elements,
iterating a 2-D array gives its rows, iterating a string gives its characters,
iterating a dict gives its keys; an int is not iterable (`TypeError`). -/
def rowLengths : Val → Except PyErr (List Nat)
  | .list l => rowLengthsVL l
  | .ndarray rows => .ok (rows.map List.length)
  | .str s => .ok (s.toList.map fun _ => 1)
  | .dict d => .ok ((dkeys d).map String.length)
  | .int _ => .error .typeError

/-- Python `max` on a list of naturals: `ValueError` on an empty list. -/
def maxPy : List Nat → Except PyErr Nat
  | [] => .error .valueError
  | n :: rest => .ok (rest.foldl Nat.max n)

/-- Column `idx` of a 2-D array, as `arr[:, idx]` reads it
(`IndexError` if a row is too short). -/
def colAt : List (List Int) → Nat → Except PyErr (List Int)
  | [], _ => .ok []
  | r :: rest, idx =>
      if h : idx < r.length then
        match colAt rest idx with
        | .error e => .error e
        | .ok c => .ok (r.get ⟨idx, h⟩ :: c)
      else .error .indexError

/-- `list(data_table[:, idx])`: numpy-style tuple indexing succeeds only on an
ndarray; on a Python list (or any other value) it raises `TypeError`. -/
def getColumn : Val → Nat → Except PyErr Val
  | .ndarray rows, idx =>
      match colAt rows idx with
      | .error e => .error e
      | .ok c => .ok (.list (ofIntRow c))
  | _, _ => .error .typeError

/-- Split a character list at `'/'`. -/
def splitSlashAux : List Char → List Char → List (List Char)
  | [], cur => [cur.reverse]
  | c :: rest, cur =>
      if c = '/' then cur.reverse :: splitSlashAux rest [] else splitSlashAux rest (c :: cur)

/-- `pathlib.PurePath(p).name`: the final nonempty path component. -/
def nameOf (p : String) : String :=
  let parts := (splitSlashAux p.toList []).filter (fun part => part ≠ [])
  String.mk (parts.getLastD [])

/-- Index of the last `'.'` in a character list, if any. -/
def lastDotAux : List Char → Nat → Option Nat → Option Nat
  | [], _, acc => acc
  | c :: rest, i, acc => lastDotAux rest (i + 1) (if c = '.' then some i else acc)

/-- `pathlib.PurePath(p).suffix`, following CPython: the part of `name` from
its last dot on, provided that dot is neither the first nor the last
character of `name`; otherwise the empty string. -/
def suffixOf (p : String) : String :=
  let cs := (nameOf p).toList
  match lastDotAux cs 0 none with
  | some i => if 0 < i ∧ i + 1 < cs.length then String.mk (cs.drop i) else ""
  | none => ""

/-- `supported_formats` from serialization.py. -/
def supported_formats : List String := [".json"]

/-- The filesystem: a mapping from path strings to the parsed JSON content of
each existing file. -/
abbrev FS := ValDict

/-- The `for idx in range(num_col_names)` loop of `serialize_data`: for each
non-`None` column name, assign `data[colname] = list(data_table[:, idx])` and
count it; the key-collision warning it may emit is non-fatal and not
modelled.  Returns the updated `data` and `named_columns`. -/
def processColumns (dt : Val) : List (Option String) → ValDict → Nat → Nat →
    Except PyErr (ValDict × Nat)
  | [], data, named, _ => .ok (data, named)
  | none :: rest, data, named, idx => processColumns dt rest data named (idx + 1)
  | some c :: rest, data, named, idx =>
      match getColumn dt idx with
      | .error e => .error e
      | .ok col => processColumns dt rest (dset data c col) (named + 1) (idx + 1)

/-- The `if dt_colnames is not None:` block of `serialize_data` (together with
the initializers `named_columns = 0`, `max_columns = 1` used when it is
skipped): computes row lengths, their maximum, raises `ImproperSizeError`
when more column names than columns were supplied, and otherwise runs the
column loop.  Returns (`data`, `named_columns`, `max_columns`). -/
def colStage (data : ValDict) (dt : Val) :
    Option (List (Option String)) → Except PyErr (ValDict × Nat × Nat)
  | none => .ok (data, 0, 1)
  | some names =>
      match rowLengths dt with
      | .error e => .error e
      | .ok ls =>
          match maxPy ls with
          | .error e => .error e
          | .ok maxc =>
              if maxc < names.length then .error .improperSizeError
              else
                match processColumns dt names data 0 0 with
                | .error e => .error e
                | .ok (d, named) => .ok (d, named, maxc)

/-- The outcome of building one entry in `serialize_data` (lines 70-128):
the title, the compiled data object, the loop counters, and the final values
of the `hdata` and `data_table` arguments (which the code never reassigns). -/
structure BuildOut : Type where
  title : String
  data : ValDict
  named_columns : Nat
  max_columns : Nat
  hdata : ValDict
  data_table : Val
  deriving DecidableEq, Repr

/-- Lines 70-128 of `serialize_data`: compile `data_table` and `hdata` into
the data object `data` and the entry title. -/
def buildEntry (resolve : String → String) (filename : String) (hdata : ValDict)
    (data_table : Val) (dt_colnames : Option (List (Option String)))
    (show_path : Bool) : Except PyErr BuildOut :=
  let abs_path := resolve filename
  let data0 : ValDict :=
    if show_path && (dlookup hdata "path").isNone then .cons "path" (.str abs_path) .nil
    else .nil
  let title := nameOf abs_path
  let data1 := dupdate data0 hdata
  match colStage data1 data_table dt_colnames with
  | .error e => .error e
  | .ok (data2, named_columns, max_columns) =>
      let data3 :=
        if named_columns < max_columns then dset data2 "data table" data_table else data2
      .ok ⟨title, data3, named_columns, max_columns, hdata, data_table⟩

/-- Lines 130-174 of `serialize_data`: with no `serial_file`, return the entry
at once; otherwise check the extension, catch the `FileNotFoundError` of the
existence probe, and either dump the entry into a new file or merge it into
the loaded content of the existing one.  Returns the function's return value,
the updated filesystem and the trace of file accesses. -/
def persistEntry (fs : FS) (entry : ValDict) :
    Option String → Except PyErr (Val × FS × List FileOp)
  | none => .ok (.dict entry, fs, [])
  | some sfPath =>
      if suffixOf sfPath ∈ supported_formats then
        match dlookup fs sfPath with
        | none =>
            .ok (.dict entry, dset fs sfPath (encodeJson (.dict entry)), [.write sfPath])
        | some stored =>
            match stored with
            | .dict m =>
                let merged := dupdate m entry
                .ok (.dict merged, dset fs sfPath (encodeJson (.dict merged)),
                  [.read sfPath, .read sfPath, .write sfPath])
            | _ => .error .attributeError
      else .error .unsupportedTypeError

/-- `serialize_data(filename, hdata, data_table, dt_colnames, show_path,
serial_file)` over filesystem `fs`, with `resolve` standing for
`pathlib.Path(·).resolve().as_posix()`. -/
def serialize_data (resolve : String → String) (fs : FS) (filename : String)
    (hdata : ValDict) (data_table : Val)
    (dt_colnames : Option (List (Option String))) (show_path : Bool)
    (serial_file : Option String) : Except PyErr (Val × FS × List FileOp) :=
  match buildEntry resolve filename hdata data_table dt_colnames show_path with
  | .error e => .error e
  | .ok out => persistEntry fs (.cons out.title (.dict out.data) .nil) serial_file

/-- The extension determination of `deserialize_data` (lines 194-203): the
support check runs only when `filetype` is `None`. -/
def extStage (filename : String) : Option String → Except PyErr String
  | none =>
      if suffixOf filename ∈ supported_formats then .ok (suffixOf filename)
      else .error .unsupportedTypeError
  | some t => .ok t

/-- The load of `deserialize_data` (lines 205-211): a `.json` extension opens
and parses the file; any other extension leaves `return_dict` empty. -/
def readStage (fs : FS) (filename : String) (ext : String) : Except PyErr Val :=
  if ext = ".json" then
    match dlookup fs filename with
    | none => .error .fileNotFoundError
    | some v => .ok v
  else .ok (.dict .nil)

/-- `deserialize_data(filename, filetype)` over filesystem `fs`: determine the
extension, load, then run the final `len(return_dict) == 0` test, which may
warn (non-fatal, not modelled) or raise `TypeError` on an unsized value. -/
def deserialize_data (fs : FS) (filename : String) (filetype : Option String) :
    Except PyErr Val :=
  match extStage filename filetype with
  | .error e => .error e
  | .ok ext =>
      match readStage fs filename ext with
      | .error e => .error e
      | .ok rd =>
          match lenPy rd with
          | .error e => .error e
          | .ok _ => .ok rd

/-- A concrete path resolver for witnesses: the working directory is `/data`. -/
def resolveFixture (s : String) : String := "/data/" ++ s

/-- The entry built for `serialize_data("a.dat", {}, ndarray [[1,2]])` with no
column names (concrete value used by witnesses). -/
def dtFixtureOut : BuildOut :=
  ⟨"a.dat", dictOf [("path", .str "/data/a.dat"), ("data table", .ndarray [[1, 2]])],
    0, 1, .nil, .ndarray [[1, 2]]⟩

/-- The entry built for
`serialize_data("a.dat", {"temp": 300}, ndarray [[1,2]], dt_colnames=["x","y"])`
(concrete value used by witnesses). -/
def pathFixtureOut : BuildOut :=
  ⟨"a.dat", dictOf [("path", .str "/data/a.dat"), ("temp", .int 300),
      ("x", .list (listOf [.int 1])), ("y", .list (listOf [.int 2]))],
    2, 2, dictOf [("temp", .int 300)], .ndarray [[1, 2]]⟩

/-- The in-memory Record for `serialize_data("a.dat", {}, ndarray [[1]])`:
the data table keeps its numpy-array form. -/
def recordV : Val :=
  .dict (dictOf [("a.dat", .dict (dictOf
    [("path", .str "/data/a.dat"), ("data table", .ndarray [[1]])]))])

/-- The JSON image of `recordV` as written to and read back from disk:
the numpy array has become a nested list. -/
def recordW : Val :=
  .dict (dictOf [("a.dat", .dict (dictOf
    [("path", .str "/data/a.dat"),
     ("data table", .list (listOf [.list (listOf [.int 1])]))]))])

/-- The entry built for `serialize_data("a.dat", {}, ndarray [[1]])` with no
column names (concrete value used by witnesses). -/
def outA : BuildOut :=
  ⟨"a.dat", dictOf [("path", .str "/data/a.dat"), ("data table", .ndarray [[1]])],
    0, 1, .nil, .ndarray [[1]]⟩

/-- `cn` supplies `k` as the name of some column. -/
def usesColName (cn : Option (List (Option String))) (k : String) : Prop :=
  match cn with
  | none => False
  | some names => some k ∈ names

instance : (cn : Option (List (Option String))) → (k : String) →
    Decidable (usesColName cn k)
  | none, _ => isFalse id
  | some names, k => inferInstanceAs (Decidable (some k ∈ names))

/-- Single-motive structural induction for `ValDict` (the generated recursor
of the mutual family has several motives, which the `induction` tactic cannot
use). -/
def ValDict.inductionOn {motive : ValDict → Prop} (nil : motive .nil)
    (cons : ∀ k v rest, motive rest → motive (.cons k v rest)) : ∀ d, motive d
  | .nil => nil
  | .cons k v rest => cons k v rest (ValDict.inductionOn nil cons rest)

theorem dlookup_dset_self (d : ValDict) (k : String) (v : Val) :
    dlookup (dset d k v) k = some v := by
  induction d using ValDict.inductionOn with
  | nil => simp [dset, dlookup]
  | cons k' v' rest ih =>
      by_cases h : k' = k
      · subst h; simp [dset, dlookup]
      · simp [dset, dlookup, h, ih]

theorem dlookup_dset_ne (d : ValDict) {k k' : String} (v : Val) (h : k' ≠ k) :
    dlookup (dset d k' v) k = dlookup d k := by
  induction d using ValDict.inductionOn with
  | nil => simp [dset, dlookup, h]
  | cons a b rest ih =>
      by_cases ha : a = k'
      · subst ha; simp [dset, dlookup, h]
      · simp only [dset, if_neg ha, dlookup]
        by_cases hak : a = k
        · simp [hak]
        · simp [hak, ih]

theorem dlookup_eq_none_of_notmem (o : ValDict) (k : String) (h : k ∉ dkeys o) :
    dlookup o k = none := by
  induction o using ValDict.inductionOn with
  | nil => rfl
  | cons k' v rest ih =>
      simp only [dkeys, List.mem_cons] at h
      push_neg at h
      have hne : k' ≠ k := fun he => h.1 he.symm
      simp [dlookup, hne, ih h.2]

theorem dlookup_dupdate_none (o : ValDict) :
    ∀ (d : ValDict) (k : String), dlookup o k = none →
      dlookup (dupdate d o) k = dlookup d k := by
  induction o using ValDict.inductionOn with
  | nil => intro d k _; rfl
  | cons k' v rest ih =>
      intro d k h
      by_cases hk : k' = k
      · subst hk; simp [dlookup] at h
      · simp only [dlookup, if_neg hk] at h
        simp only [dupdate]
        rw [ih _ _ h, dlookup_dset_ne _ _ hk]

theorem dlookup_dupdate_some (o : ValDict) :
    ∀ (d : ValDict) (k : String) (v : Val), (dkeys o).Nodup →
      dlookup o k = some v → dlookup (dupdate d o) k = some v := by
  induction o using ValDict.inductionOn with
  | nil => intro d k v _ h; simp [dlookup] at h
  | cons k' v' rest ih =>
      intro d k v hn h
      simp only [dkeys, List.nodup_cons] at hn
      by_cases hk : k' = k
      · subst hk
        have hv : v' = v := by simpa [dlookup] using h
        subst hv
        have hnone : dlookup rest k' = none :=
          dlookup_eq_none_of_notmem rest k' hn.1
        simp only [dupdate]
        rw [dlookup_dupdate_none rest _ _ hnone, dlookup_dset_self]
      · simp only [dlookup, if_neg hk] at h
        simp only [dupdate]
        exact ih _ _ _ hn.2 h

theorem processColumns_dlookup (dt : Val) (k : String) :
    ∀ (names : List (Option String)) (data : ValDict) (named idx : Nat)
      (d' : ValDict) (n' : Nat), some k ∉ names →
      processColumns dt names data named idx = .ok (d', n') →
      dlookup d' k = dlookup data k := by
  intro names
  induction names with
  | nil =>
      intro data named idx d' n' _ h
      simp only [processColumns, Except.ok.injEq, Prod.mk.injEq] at h
      rw [← h.1]
  | cons c rest ih =>
      intro data named idx d' n' hk h
      cases c with
      | none =>
          simp only [List.mem_cons] at hk
          push_neg at hk
          exact ih data named (idx + 1) d' n' hk.2 h
      | some cname =>
          simp only [List.mem_cons] at hk
          push_neg at hk
          have hck : cname ≠ k := fun he => hk.1 (by rw [he])
          simp only [processColumns] at h
          cases hcol : getColumn dt idx with
          | error e => rw [hcol] at h; exact absurd h (by simp)
          | ok col =>
              rw [hcol] at h
              rw [ih _ _ _ _ _ hk.2 h, dlookup_dset_ne _ _ hck]

theorem colStage_dlookup (data : ValDict) (dt : Val)
    (cn : Option (List (Option String))) (k : String) (d' : ValDict) (n m : Nat)
    (hk : ¬ usesColName cn k) (hs : colStage data dt cn = .ok (d', n, m)) :
    dlookup d' k = dlookup data k := by
  cases cn with
  | none =>
      simp only [colStage, Except.ok.injEq, Prod.mk.injEq] at hs
      rw [← hs.1]
  | some names =>
      simp only [colStage] at hs
      split at hs
      · exact absurd hs (by simp)
      · split at hs
        · exact absurd hs (by simp)
        · split at hs
          · exact absurd hs (by simp)
          · split at hs
            · exact absurd hs (by simp)
            · rename_i d named heq
              simp only [Except.ok.injEq, Prod.mk.injEq] at hs
              rw [← hs.1]
              exact processColumns_dlookup dt k names data 0 0 d named hk heq

theorem colAt_err : ∀ (rows : List (List Int)) (idx : Nat) (e : PyErr),
    colAt rows idx = .error e → e = .indexError := by
  intro rows
  induction rows with
  | nil => intro idx e h; simp [colAt] at h
  | cons r rest ih =>
      intro idx e h
      simp only [colAt] at h
      split at h
      · split at h
        · rename_i e' he
          simp only [Except.error.injEq] at h
          subst h
          exact ih idx e' he
        · exact absurd h (by simp)
      · simp only [Except.error.injEq] at h
        exact h.symm

theorem getColumn_err (dt : Val) (idx : Nat) (e : PyErr)
    (h : getColumn dt idx = .error e) : e = .typeError ∨ e = .indexError := by
  cases dt with
  | ndarray rows =>
      simp only [getColumn] at h
      split at h
      · rename_i e' he
        simp only [Except.error.injEq] at h
        subst h
        exact .inr (colAt_err rows idx e' he)
      · exact absurd h (by simp)
  | int n => simp only [getColumn, Except.error.injEq] at h; exact .inl h.symm
  | str s => simp only [getColumn, Except.error.injEq] at h; exact .inl h.symm
  | list l => simp only [getColumn, Except.error.injEq] at h; exact .inl h.symm
  | dict d => simp only [getColumn, Except.error.injEq] at h; exact .inl h.symm

theorem processColumns_err (dt : Val) :
    ∀ (names : List (Option String)) (data : ValDict) (named idx : Nat) (e : PyErr),
      processColumns dt names data named idx = .error e →
      e = .typeError ∨ e = .indexError := by
  intro names
  induction names with
  | nil => intro data named idx e h; simp [processColumns] at h
  | cons c rest ih =>
      intro data named idx e h
      cases c with
      | none => exact ih data named (idx + 1) e h
      | some cname =>
          simp only [processColumns] at h
          split at h
          · rename_i e' he
            simp only [Except.error.injEq] at h
            subst h
            exact getColumn_err dt idx e' he
          · exact ih _ _ _ _ h

theorem persistEntry_err (fs : FS) (entry : ValDict) (sf : Option String) (e : PyErr)
    (h : persistEntry fs entry sf = .error e) :
    e = .unsupportedTypeError ∨ e = .attributeError := by
  cases sf with
  | none => simp [persistEntry] at h
  | some sfPath =>
      simp only [persistEntry] at h
      split at h
      · split at h
        · exact absurd h (by simp)
        · split at h
          · exact absurd h (by simp)
          all_goals
            simp only [Except.error.injEq] at h
            exact .inr h.symm
      · simp only [Except.error.injEq] at h
        exact .inl h.symm

theorem lenPy_err (v : Val) (e : PyErr) (h : lenPy v = .error e) : e = .typeError := by
  cases v <;> simp_all [lenPy]

/-- C1: calling `serialize_data("run1.dat", {"temp": 300}, [[1,2],[3,4]],
dt_colnames=["x","y"], serial_file=None)` with the data table given as a plain
Python list of lists does NOT return the claimed Record: the column
extraction `data_table[:, idx]` raises `TypeError` on a list.  With the same
table as a numpy array the call does return exactly the Record
`{"run1.dat": {"path": <abs>, "temp": 300, "x": [1,3], "y": [2,4]}}` with no
`"data table"` key, no filesystem change and no file access — so the claim
describes the intent (and the docstring, which allows `data_table: list or
ndarray`), and the code is at fault on the list input. -/
theorem serialize_list_table_raises :
    serialize_data resolveFixture .nil "run1.dat" (dictOf [("temp", .int 300)])
        (.list (listOf [.list (listOf [.int 1, .int 2]),
          .list (listOf [.int 3, .int 4])]))
        (some [some "x", some "y"]) true none = .error .typeError ∧
    serialize_data resolveFixture .nil "run1.dat" (dictOf [("temp", .int 300)])
        (.ndarray [[1, 2], [3, 4]]) (some [some "x", some "y"]) true none =
      .ok (.dict (dictOf [("run1.dat", .dict (dictOf
            [("path", .str "/data/run1.dat"), ("temp", .int 300),
             ("x", .list (listOf [.int 1, .int 3])),
             ("y", .list (listOf [.int 2, .int 4]))]))]), .nil, []) :=
  ⟨rfl, rfl⟩

/-- C2 counterexample: with `filetype` given as the unsupported `".txt"`, the
effective extension is not among the supported formats, yet
`deserialize_data` does not raise `UnsupportedTypeError` — it returns the
empty dict (the extension check runs only when `filetype` is `None`). -/
theorem deserialize_unsupported_cex :
    ".txt" ∉ supported_formats ∧
    deserialize_data .nil "data.json" (some ".txt") = .ok (.dict .nil) :=
  ⟨by decide, rfl⟩

/-- C2 (amended): `deserialize_data` raises `UnsupportedTypeError` exactly
when `filetype` is `None` and the suffix of `filename` is not a supported
format; when `filetype` is given no support check is performed, and an
unsupported `filetype` makes the function return the empty dict instead of
raising. -/
theorem readStage_err (fs : FS) (filename : String) (ext : String) (e : PyErr)
    (h : readStage fs filename ext = .error e) : e = .fileNotFoundError := by
  simp only [readStage] at h
  split at h
  · split at h
    · injection h with h; exact h.symm
    · exact absurd h (by simp)
  · exact absurd h (by simp)

theorem deserialize_unsupported_iff (fs : FS) (filename : String)
    (filetype : Option String) :
    (deserialize_data fs filename filetype = .error .unsupportedTypeError ↔
      (filetype = none ∧ suffixOf filename ∉ supported_formats)) ∧
    (∀ t, filetype = some t → t ∉ supported_formats →
      deserialize_data fs filename filetype = .ok (.dict .nil)) := by
  constructor
  · constructor
    · intro h
      rw [deserialize_data] at h
      split at h
      · rename_i e he
        cases filetype with
        | some t => simp [extStage] at he
        | none =>
            by_cases hm : suffixOf filename ∈ supported_formats
            · simp [extStage, hm] at he
            · exact ⟨rfl, hm⟩
      · rename_i ext he
        split at h
        · rename_i e hr
          have he2 := readStage_err fs filename ext e hr
          subst he2
          exact absurd h (by simp)
        · rename_i rd hr
          split at h
          · rename_i e hl
            have he2 := lenPy_err rd e hl
            subst he2
            exact absurd h (by simp)
          · exact absurd h (by simp)
    · rintro ⟨hft, hnm⟩
      subst hft
      simp [deserialize_data, extStage, hnm]
  · intro t ht hsup
    subst ht
    have hj : t ≠ ".json" := by
      intro he; exact hsup (by simp [supported_formats, he])
    simp [deserialize_data, extStage, readStage, hj, lenPy, dlen]

/-- C2 witness: a concrete unsupported `filetype` on which the amended claim
yields the empty dict. -/
theorem deserialize_unsupported_iff_w :
    deserialize_data .nil "b.json" (some ".txt") = .ok (.dict .nil) :=
  (deserialize_unsupported_iff .nil "b.json" (some ".txt")).2 ".txt" rfl (by decide)

/-- The `if dt_colnames is not None` block raises `ImproperSizeError` iff the
maximum row length is smaller than the number of supplied column names. -/
theorem buildEntry_improper_iff (resolve : String → String) (fn : String)
    (hdata : ValDict) (dt : Val) (names : List (Option String)) (sp : Bool)
    {ls : List Nat} {m : Nat}
    (h1 : rowLengths dt = .ok ls) (h2 : maxPy ls = .ok m) :
    (buildEntry resolve fn hdata dt (some names) sp = .error .improperSizeError) ↔
      m < names.length := by
  simp only [buildEntry, colStage, h1, h2]
  by_cases hlt : m < names.length
  · simp [hlt]
  · simp only [if_neg hlt]
    constructor
    · intro h
      cases hp : processColumns dt names (dupdate _ hdata) 0 0 with
      | error e =>
          rw [hp] at h
          have := processColumns_err dt names _ 0 0 e hp
          rcases this with h' | h' <;> (subst h'; exact absurd h (by simp))
      | ok p => rw [hp] at h; exact absurd h (by simp)
    · intro h
      exact absurd h hlt

/-- C3: for every data table whose row lengths are defined and nonempty (so
that `max_columns`, their maximum, exists) and every given `dt_colnames`,
`serialize_data` raises `ImproperSizeError` iff `len(dt_colnames)` exceeds
`max_columns` — regardless of all the remaining arguments. -/
theorem serialize_improper_iff (resolve : String → String) (fs : FS)
    (fn : String) (hdata : ValDict) (dt : Val) (names : List (Option String))
    (sp : Bool) (sf : Option String) {ls : List Nat} {m : Nat}
    (h1 : rowLengths dt = .ok ls) (h2 : maxPy ls = .ok m) :
    (serialize_data resolve fs fn hdata dt (some names) sp sf =
      .error .improperSizeError) ↔ m < names.length := by
  constructor
  · intro h
    by_contra hlt
    cases hb : buildEntry resolve fn hdata dt (some names) sp with
    | error e =>
        have hne : e ≠ .improperSizeError := by
          intro he
          subst he
          exact hlt ((buildEntry_improper_iff resolve fn hdata dt names sp h1 h2).1 hb)
        rw [serialize_data, hb] at h
        exact hne (by simpa using h)
    | ok out =>
        rw [serialize_data, hb] at h
        rcases persistEntry_err fs _ sf _ h with h' | h' <;> cases h'
  · intro h
    have hb := (buildEntry_improper_iff resolve fn hdata dt names sp h1 h2).2 h
    rw [serialize_data, hb]

/-- C3 witness: three column names against a table of maximum row length two
raise `ImproperSizeError`. -/
theorem serialize_improper_iff_w :
    serialize_data resolveFixture .nil "a.dat" .nil (.ndarray [[1, 2]])
      (some [some "x", none, some "y"]) true none = .error .improperSizeError :=
  (serialize_improper_iff resolveFixture .nil "a.dat" .nil (.ndarray [[1, 2]])
    [some "x", none, some "y"] true none rfl rfl).mpr (by decide)

/-- C4 counterexample: with `hdata = {"data table": 5}`, one column and one
column name (`named_columns = max_columns = 1`, i.e. every column covered),
the produced Data Object still contains a `"data table"` key — the one copied
from `hdata` — so the claim's "the key is absent" fails as stated. -/
theorem serialize_data_table_key_cex :
    (buildEntry resolveFixture "a.dat" (dictOf [("data table", .int 5)])
        (.ndarray [[1], [2]]) (some [some "x"]) true).map
      (fun out => (out.named_columns, out.max_columns,
        dlookup out.data "data table")) = .ok (1, 1, some (.int 5)) := rfl

/-- C4 (amended): in every Data Object built by `serialize_data` (provided no
column is itself named `"data table"`), when the count of named columns
equals the table's maximum row length the code does not insert the table:
the `"data table"` key holds exactly what `hdata` supplied (so it is absent
when `hdata` has no such key); otherwise `"data table"` is present and holds
the entire `data_table`. -/
theorem serialize_data_table_key (resolve : String → String) (fn : String)
    (hdata : ValDict) (dt : Val) (cn : Option (List (Option String)))
    (sp : Bool) (out : BuildOut)
    (hk : ¬ usesColName cn "data table")
    (hnd : (dkeys hdata).Nodup)
    (hs : buildEntry resolve fn hdata dt cn sp = .ok out) :
    (out.named_columns = out.max_columns →
      dlookup out.data "data table" = dlookup hdata "data table") ∧
    (out.named_columns < out.max_columns →
      dlookup out.data "data table" = some dt) := by
  simp only [buildEntry] at hs
  split at hs
  · exact absurd hs (by simp)
  · rename_i data2 named maxc heq
    injection hs with hs
    subst hs
    constructor
    · intro hnm
      simp only at hnm
      have hlt : ¬ named < maxc := by omega
      simp only [if_neg hlt]
      rw [colStage_dlookup _ dt cn "data table" data2 named maxc hk heq]
      cases hh : dlookup hdata "data table" with
      | some v => rw [dlookup_dupdate_some hdata _ _ _ hnd hh]
      | none =>
          rw [dlookup_dupdate_none hdata _ _ hh]
          split <;> simp [dlookup]
    · intro hlt
      simp only at hlt
      simp only [if_pos hlt]
      exact dlookup_dset_self data2 "data table" dt

/-- C4 witness: with no column names, `named_columns < max_columns` and the
Data Object holds the whole table under `"data table"`. -/
theorem serialize_data_table_key_w :
    dlookup dtFixtureOut.data "data table" = some (.ndarray [[1, 2]]) :=
  (serialize_data_table_key resolveFixture "a.dat" .nil (.ndarray [[1, 2]])
    none true dtFixtureOut (by decide) (by decide) rfl).2 (by decide)

/-- C5 counterexample: with `hdata = {}` (no `"path"` key), `show_path=True`
and a column named `"path"`, the produced Data Object's `"path"` entry is the
extracted column, not the absolute POSIX path of `filename` — so the claim
fails as stated. -/
theorem serialize_path_entry_cex :
    (buildEntry resolveFixture "a.dat" .nil (.ndarray [[1], [2]])
        (some [some "path"]) true).map (fun out => dlookup out.data "path") =
      .ok (some (.list (listOf [.int 1, .int 2]))) ∧
    Val.list (listOf [.int 1, .int 2]) ≠ Val.str (resolveFixture "a.dat") :=
  ⟨rfl, by decide⟩

/-- C5 (amended): for every `hdata` and every call with `show_path=True`,
provided no data-table column is itself named `"path"`: when `hdata` has no
`"path"` key the produced Data Object's `"path"` entry is the absolute POSIX
path of `filename` (here `resolve filename`); when `hdata` supplies `"path"`,
its value is kept. -/
theorem serialize_path_entry (resolve : String → String) (fn : String)
    (hdata : ValDict) (dt : Val) (cn : Option (List (Option String)))
    (out : BuildOut)
    (hp : ¬ usesColName cn "path")
    (hnd : (dkeys hdata).Nodup)
    (hs : buildEntry resolve fn hdata dt cn true = .ok out) :
    (dlookup hdata "path" = none →
      dlookup out.data "path" = some (.str (resolve fn))) ∧
    (∀ pv, dlookup hdata "path" = some pv → dlookup out.data "path" = some pv) := by
  constructor
  · intro hnone
    simp only [buildEntry, hnone, Option.isNone_none, Bool.and_self, if_true] at hs
    split at hs
    · exact absurd hs (by simp)
    · rename_i data2 named maxc heq
      injection hs with hs
      subst hs
      have h2 : dlookup data2 "path" =
          dlookup (dupdate (ValDict.cons "path" (.str (resolve fn)) .nil) hdata)
            "path" :=
        colStage_dlookup _ dt cn "path" data2 named maxc hp heq
      rw [dlookup_dupdate_none hdata _ _ hnone] at h2
      simp only [dlookup, if_pos rfl] at h2
      simp only
      rcases Nat.lt_or_ge named maxc with hlt | hge
      · rw [if_pos hlt, dlookup_dset_ne _ _ (by decide : "data table" ≠ "path")]
        exact h2
      · rw [if_neg (Nat.not_lt.mpr hge)]
        exact h2
  · intro pv hsome
    simp only [buildEntry, hsome, Option.isNone_some, Bool.and_false] at hs
    rw [if_neg (by simp)] at hs
    split at hs
    · exact absurd hs (by simp)
    · rename_i data2 named maxc heq
      injection hs with hs
      subst hs
      have h2 : dlookup data2 "path" = dlookup (dupdate .nil hdata) "path" :=
        colStage_dlookup _ dt cn "path" data2 named maxc hp heq
      rw [dlookup_dupdate_some hdata _ _ _ hnd hsome] at h2
      simp only
      rcases Nat.lt_or_ge named maxc with hlt | hge
      · rw [if_pos hlt, dlookup_dset_ne _ _ (by decide : "data table" ≠ "path")]
        exact h2
      · rw [if_neg (Nat.not_lt.mpr hge)]
        exact h2

/-- C5 witness: `hdata = {"temp": 300}` has no `"path"` key and the columns
are named `x`, `y`, so the Data Object's `"path"` entry is the resolved
absolute path. -/
theorem serialize_path_entry_w :
    dlookup pathFixtureOut.data "path" = some (.str (resolveFixture "a.dat")) :=
  (serialize_path_entry resolveFixture "a.dat" (dictOf [("temp", .int 300)])
    (.ndarray [[1, 2]]) (some [some "x", some "y"]) pathFixtureOut
    (by decide) (by decide) rfl).1 rfl

/-- C6: with `serial_file=None`, `serialize_data` returns exactly the
single-entry Record `{title: data}`, the filesystem is returned untouched and
the trace of file accesses is empty; when entry-building raises, the error
propagates, again with no file access. -/
theorem serialize_no_save (resolve : String → String) (fs : FS) (fn : String)
    (hdata : ValDict) (dt : Val) (cn : Option (List (Option String)))
    (sp : Bool) :
    (∀ out, buildEntry resolve fn hdata dt cn sp = .ok out →
      serialize_data resolve fs fn hdata dt cn sp none =
        .ok (.dict (.cons out.title (.dict out.data) .nil), fs, [])) ∧
    (∀ e, buildEntry resolve fn hdata dt cn sp = .error e →
      serialize_data resolve fs fn hdata dt cn sp none = .error e) := by
  constructor
  · intro out hb
    rw [serialize_data, hb]
    rfl
  · intro e hb
    rw [serialize_data, hb]

/-- C6 witness: a concrete no-save call returning the lone Record with the
filesystem unchanged and no file access. -/
theorem serialize_no_save_w :
    serialize_data resolveFixture .nil "a.dat" .nil (.ndarray [[1, 2]]) none
        true none =
      .ok (.dict (.cons dtFixtureOut.title (.dict dtFixtureOut.data) .nil),
        .nil, []) :=
  (serialize_no_save resolveFixture .nil "a.dat" .nil (.ndarray [[1, 2]]) none
    true).1 dtFixtureOut rfl

/-- Reading back a `.json` file that stores a dict returns that dict. -/
theorem deserialize_of_stored (fs : FS) (f : String) (d : ValDict)
    (hsuf : suffixOf f = ".json") (hv : dlookup fs f = some (.dict d)) :
    deserialize_data fs f none = .ok (.dict d) := by
  have he : extStage f none = .ok ".json" := by
    simp [extStage, hsuf, supported_formats]
  have hr : readStage fs f ".json" = .ok (.dict d) := by
    simp [readStage, hv]
  simp only [deserialize_data, he, hr, lenPy]

/-- C7 counterexample: serializing `{"a.dat": {..., "data table": ndarray}}`
into a fresh file stores its JSON image, and deserializing returns that image
(`recordW`, whose table is a nested list) — which differs from the written
Record (`recordV`, whose table is still a numpy array).  So the round-trip
does not return the Record literally "unchanged". -/
theorem serialize_roundtrip_cex :
    serialize_data resolveFixture .nil "a.dat" .nil (.ndarray [[1]]) none true
        (some "s.json") =
      .ok (recordV, .cons "s.json" recordW .nil, [.write "s.json"]) ∧
    deserialize_data (.cons "s.json" recordW .nil) "s.json" none =
      .ok recordW ∧
    recordW ≠ recordV :=
  ⟨rfl, rfl, by decide⟩

/-- C7 (amended): after `serialize_data(..., serial_file=f)` into a
previously non-existing `f` returns the Record `v`, `deserialize_data(f)`
returns exactly the JSON image `encodeJson v` of the written Record — the
Record with every numpy array converted to a nested list, and everything
else unchanged. -/
theorem serialize_roundtrip (resolve : String → String) (fs : FS) (fn : String)
    (hdata : ValDict) (dt : Val) (cn : Option (List (Option String)))
    (sp : Bool) (f : String) (v : Val) (fs' : FS) (ops : List FileOp)
    (hnew : dlookup fs f = none)
    (hs : serialize_data resolve fs fn hdata dt cn sp (some f) =
      .ok (v, fs', ops)) :
    deserialize_data fs' f none = .ok (encodeJson v) := by
  rw [serialize_data] at hs
  split at hs
  · exact absurd hs (by simp)
  · rename_i out hb
    simp only [persistEntry] at hs
    split at hs
    · rename_i hmem
      rw [hnew] at hs
      simp only [Except.ok.injEq, Prod.mk.injEq] at hs
      obtain ⟨hv, hfs, hops⟩ := hs
      subst hv
      subst hfs
      have hsuf : suffixOf f = ".json" := by
        simpa [supported_formats] using hmem
      exact deserialize_of_stored _ f _ hsuf
        (by rw [dlookup_dset_self]; simp only [encodeJson])
    · exact absurd hs (by simp)

/-- C7 witness: the round-trip theorem applied at the concrete fresh-file
serialization of `recordV`. -/
theorem serialize_roundtrip_w :
    deserialize_data (.cons "s.json" recordW .nil) "s.json" none =
      .ok (encodeJson recordV) :=
  serialize_roundtrip resolveFixture .nil "a.dat" .nil (.ndarray [[1]]) none
    true "s.json" recordV (.cons "s.json" recordW .nil) [.write "s.json"]
    rfl rfl

/-- C8: serializing the same `(filename, hdata, data_table)` twice into the
same fresh `serial_file` leaves the persisted store with exactly one entry,
keyed by the title, whose value is the freshly encoded Record (the second
call overwrites the entry wholesale), and the second call returns that
single-entry Record. -/
theorem serialize_twice (resolve : String → String) (fs : FS) (fn : String)
    (hdata : ValDict) (dt : Val) (cn : Option (List (Option String)))
    (sp : Bool) (f : String) (out : BuildOut) (v1 : Val) (fs1 : FS)
    (t1 : List FileOp) (v2 : Val) (fs2 : FS) (t2 : List FileOp)
    (hb : buildEntry resolve fn hdata dt cn sp = .ok out)
    (h0 : dlookup fs f = none)
    (h1 : serialize_data resolve fs fn hdata dt cn sp (some f) =
      .ok (v1, fs1, t1))
    (h2 : serialize_data resolve fs1 fn hdata dt cn sp (some f) =
      .ok (v2, fs2, t2)) :
    dlookup fs2 f =
      some (encodeJson (.dict (.cons out.title (.dict out.data) .nil))) ∧
    v2 = .dict (.cons out.title (.dict out.data) .nil) := by
  rw [serialize_data, hb] at h1
  rw [serialize_data, hb] at h2
  simp only [persistEntry] at h1 h2
  split at h1
  · rename_i hmem
    rw [h0] at h1
    simp only [Except.ok.injEq, Prod.mk.injEq] at h1
    obtain ⟨hv1, hfs1, ht1⟩ := h1
    subst hfs1
    rw [if_pos hmem, dlookup_dset_self] at h2
    simp only [encodeJson, encodeDict, dupdate, dset, if_true, if_pos,
      Except.ok.injEq, Prod.mk.injEq] at h2
    obtain ⟨hv2, hfs2, ht2⟩ := h2
    subst hfs2
    refine ⟨?_, hv2.symm⟩
    rw [dlookup_dset_self]
    simp only [encodeJson, encodeDict]
  · exact absurd h1 (by simp)

/-- C8 witness: the double-serialization theorem applied at the concrete
fresh-file serialization of `recordV`. -/
theorem serialize_twice_w :
    dlookup (.cons "s.json" recordW .nil) "s.json" =
      some (encodeJson (.dict (.cons outA.title (.dict outA.data) .nil))) ∧
    recordV = .dict (.cons outA.title (.dict outA.data) .nil) :=
  serialize_twice resolveFixture .nil "a.dat" .nil (.ndarray [[1]]) none true
    "s.json" outA recordV (.cons "s.json" recordW .nil) [.write "s.json"]
    recordV (.cons "s.json" recordW .nil)
    [.read "s.json", .read "s.json", .write "s.json"] rfl rfl rfl rfl

/-- C9: when `serial_file` names a non-existing file (of supported
extension), `serialize_data` returns normally — the `FileNotFoundError` of
the existence probe is caught internally — creating the file with exactly the
encoded Record as content and returning the Record mapping. -/
theorem serialize_new_file (resolve : String → String) (fs : FS) (fn : String)
    (hdata : ValDict) (dt : Val) (cn : Option (List (Option String)))
    (sp : Bool) (f : String) (out : BuildOut)
    (hb : buildEntry resolve fn hdata dt cn sp = .ok out)
    (hf : suffixOf f = ".json")
    (h0 : dlookup fs f = none) :
    serialize_data resolve fs fn hdata dt cn sp (some f) =
      .ok (.dict (.cons out.title (.dict out.data) .nil),
        dset fs f (encodeJson (.dict (.cons out.title (.dict out.data) .nil))),
        [.write f]) := by
  rw [serialize_data, hb]
  simp only [persistEntry]
  rw [if_pos (by simp [hf, supported_formats] :
    suffixOf f ∈ supported_formats), h0]

/-- C9 witness: the new-file theorem applied at a concrete missing file. -/
theorem serialize_new_file_w :
    serialize_data resolveFixture .nil "a.dat" .nil (.ndarray [[1]]) none true
        (some "s.json") =
      .ok (.dict (.cons outA.title (.dict outA.data) .nil),
        dset .nil "s.json"
          (encodeJson (.dict (.cons outA.title (.dict outA.data) .nil))),
        [.write "s.json"]) :=
  serialize_new_file resolveFixture .nil "a.dat" .nil (.ndarray [[1]]) none
    true "s.json" outA rfl rfl rfl

/-- C10: on every normal return of entry-building, the `hdata` and
`data_table` arguments come out exactly as they went in: the code assigns
only into the freshly created `data` dict (and rebinds neither `hdata` nor
`data_table`), so the caller's objects are not mutated. -/
theorem serialize_preserves_inputs (resolve : String → String) (fn : String)
    (hdata : ValDict) (dt : Val) (cn : Option (List (Option String)))
    (sp : Bool) (out : BuildOut)
    (hs : buildEntry resolve fn hdata dt cn sp = .ok out) :
    out.hdata = hdata ∧ out.data_table = dt := by
  simp only [buildEntry] at hs
  split at hs
  · exact absurd hs (by simp)
  · injection hs with hs
    subst hs
    exact ⟨rfl, rfl⟩

/-- C10 witness: the preservation theorem applied at a concrete call. -/
theorem serialize_preserves_inputs_w :
    dtFixtureOut.hdata = .nil ∧ dtFixtureOut.data_table = .ndarray [[1, 2]] :=
  serialize_preserves_inputs resolveFixture "a.dat" .nil (.ndarray [[1, 2]])
    none true dtFixtureOut rfl

end Diffpy
